import Mathlib

/-!
Verification of the interactive undo-point navigator in `bettergit/ui.py`
(`select_undo_point`, `select_from_list` and their helpers), as a shallow
embedding: Python ints become `Int`/`Nat`, byte/character streams become
lists, exceptions become `Except`/an explicit outcome type, and the
terminal-mode dance of the Unix branch is threaded as explicit state.
-/

set_option autoImplicit false

namespace BetterGit

/-- Logical navigation events produced by the key-decoding branches of
`select_undo_point` (spec §4.1's `MoveUp/MoveDown/Accept/Cancel/Ignore`). -/
inductive KeyEvent where
  | moveUp
  | moveDown
  | accept
  | cancel
  | ignore
  deriving DecidableEq, Repr

/-- Python exceptions that the embedded code can raise. -/
inductive PyErr where
  | importError
  | keyboardInterrupt
  | ioError
  | valueError
  deriving DecidableEq, Repr

/-- Outcome of a Python call: a returned value, a propagated exception, or
divergence (an infinite loop, used for the Unix branch spinning on EOF). -/
inductive PyOutcome (α : Type) where
  | ret (a : α)
  | raised (e : PyErr)
  | diverge
  deriving DecidableEq, Repr

/-- Result of one `sys.stdin.read(1)` slot in the Unix branch: a delivered
character, or a read that raises an I/O error.  The end of the list models
end-of-input: in Python, `read(1)` then returns the empty string `''`. -/
inductive ReadRes where
  | ch (c : Char)
  | fail
  deriving DecidableEq, Repr

/-- Result of one `msvcrt.getch()` slot in the Windows branch: a delivered
byte, or a call that raises (e.g. `KeyboardInterrupt` from OS-level Ctrl+C). -/
inductive WinRead where
  | byte (b : Nat)
  | err (e : PyErr)
  deriving DecidableEq, Repr

/-- Viewport window of `display_menu` (ui.py lines 227-233), as a pure
function: `start_idx = max(0, current_pos - max_visible // 2)`,
`end_idx = min(len(choices), start_idx + max_visible)`, then
`start_idx = max(0, end_idx - max_visible)` when
`end_idx - start_idx < max_visible and start_idx > 0`. -/
def window (total cursor maxVisible : Int) : Int × Int :=
  let start_idx := max 0 (cursor - maxVisible / 2)
  let end_idx := min total (start_idx + maxVisible)
  let start_idx :=
    if end_idx - start_idx < maxVisible ∧ 0 < start_idx then
      max 0 (end_idx - maxVisible)
    else
      start_idx
  (start_idx, end_idx)

/-- Key decoder of the Unix branch (ui.py lines 296-314), viewed as a pure
function from the characters available in one read cycle to a logical event
plus the unconsumed remainder.  The branch structure follows the source:
`'\x1b'` then `'['` then `'A'`/`'B'` give the arrow events, `key2 == ''`
(end of input after a lone escape) returns `None` i.e. `cancel`, `'\r'` or
`'\n'` accept, `'\x03'` cancels, and every unmatched byte falls through the
`if`/`elif` chain, which continues the loop (`ignore`).  A `fail` slot is a
read that raises, surfaced as `Except.error`. -/
def decodeUnix : List ReadRes → Except PyErr (KeyEvent × List ReadRes)
  | [] => .ok (.ignore, [])
  | .fail :: _ => .error .ioError
  | .ch '\x1b' :: [] => .ok (.cancel, [])
  | .ch '\x1b' :: .fail :: _ => .error .ioError
  | .ch '\x1b' :: .ch '[' :: [] => .ok (.ignore, [])
  | .ch '\x1b' :: .ch '[' :: .fail :: _ => .error .ioError
  | .ch '\x1b' :: .ch '[' :: .ch 'A' :: rest => .ok (.moveUp, rest)
  | .ch '\x1b' :: .ch '[' :: .ch 'B' :: rest => .ok (.moveDown, rest)
  | .ch '\x1b' :: .ch '[' :: .ch _ :: rest => .ok (.ignore, rest)
  | .ch '\x1b' :: .ch _ :: rest => .ok (.ignore, rest)
  | .ch '\r' :: rest => .ok (.accept, rest)
  | .ch '\n' :: rest => .ok (.accept, rest)
  | .ch '\x03' :: rest => .ok (.cancel, rest)
  | .ch _ :: rest => .ok (.ignore, rest)

/-- Key decoder of the Windows branch (ui.py lines 272-289): `b'\xe0'` (224)
then `b'H'` (72) / `b'P'` (80) give the arrow events, `b'\r'` (13) accepts,
`b'\x1b'` (27) and `b'\x03'` (3) cancel, anything else falls through the
`if`/`elif` chain (`ignore`).  `getch` at end of input blocks forever on a
closed stream, modelled as a read failure; an `err` slot is a `getch` call
that raises. -/
def decodeWin : List WinRead → Except PyErr (KeyEvent × List WinRead)
  | [] => .error .ioError
  | .err e :: _ => .error e
  | .byte 224 :: [] => .error .ioError
  | .byte 224 :: .err e :: _ => .error e
  | .byte 224 :: .byte 72 :: rest => .ok (.moveUp, rest)
  | .byte 224 :: .byte 80 :: rest => .ok (.moveDown, rest)
  | .byte 224 :: .byte _ :: rest => .ok (.ignore, rest)
  | .byte 13 :: rest => .ok (.accept, rest)
  | .byte 27 :: rest => .ok (.cancel, rest)
  | .byte 3 :: rest => .ok (.cancel, rest)
  | .byte _ :: rest => .ok (.ignore, rest)

/-- Cursor update of `select_undo_point` for one logical event, with the
redraw flag: `current_pos -= 1` and a `display_menu()` call only when
`current_pos > 0` (lines 277-279 / 302-304), `current_pos += 1` and a
redraw only when `current_pos < len(choices) - 1` (lines 281-283 / 306-308);
every other event leaves both unchanged. -/
def cursorStep (n pos : Nat) : KeyEvent → Nat × Bool
  | .moveUp => if 0 < pos then (pos - 1, true) else (pos, false)
  | .moveDown => if pos < n - 1 then (pos + 1, true) else (pos, false)
  | _ => (pos, false)

/-- Cursor position after feeding a whole list of logical events, starting
from `pos` (the session starts at `current_pos = 0`, line 203). -/
def cursorFold (n pos : Nat) (evs : List KeyEvent) : Nat :=
  evs.foldl (fun p e => (cursorStep n p e).1) pos

/-- Event-level session loop of `select_undo_point`: `accept` returns the
current cursor index, `cancel` returns no selection, movement events update
the cursor via `cursorStep`; an exhausted event stream is a read failure
(`InputStreamClosed` in the spec's taxonomy). -/
def runSession (n : Nat) : Nat → List KeyEvent → Except PyErr (Option Nat)
  | _, [] => .error .ioError
  | pos, e :: rest =>
    match e with
    | .accept => .ok (some pos)
    | .cancel => .ok none
    | _ => runSession n (cursorStep n pos e).1 rest

/-- Effect of `termios.tcsetattr(fd, TCSADRAIN, old_settings)`: the current
terminal mode (first argument) is discarded and the saved snapshot is
reinstated. -/
def tcsetattr {M : Type} (_current : M) (old : M) : M := old

/-- Outcome of the Unix key-reading loop: a returned selection, an exception
propagating to the outer handlers, or divergence (at end of input,
`sys.stdin.read(1)` yields `''` forever, no branch matches, and the `while
True` loop spins). -/
inductive UnixOut where
  | done (r : Option Nat)
  | threw (e : PyErr)
  | spin
  deriving DecidableEq, Repr

/-- Unix branch of the key-reading loop (ui.py lines 290-316) with the
terminal mode threaded explicitly.  Each iteration takes the snapshot
`old_settings := mode` (`tcgetattr`), applies `setraw`, reads and reacts,
and on every path out of the `try` executes the `finally`:
`tcsetattr (setraw mode) mode`.  Returns and raises carry the restored
mode; the loop continues with the restored mode. -/
def unixLoop {M : Type} (setraw : M → M) (n : Nat) :
    Nat → List ReadRes → M → UnixOut × M
  | _, [], mode => (.spin, mode)
  | _, .fail :: _, mode => (.threw .ioError, tcsetattr (setraw mode) mode)
  | _, .ch '\x1b' :: [], mode => (.done none, tcsetattr (setraw mode) mode)
  | _, .ch '\x1b' :: .fail :: _, mode =>
    (.threw .ioError, tcsetattr (setraw mode) mode)
  | pos, .ch '\x1b' :: .ch '[' :: [], mode =>
    unixLoop setraw n pos [] (tcsetattr (setraw mode) mode)
  | _, .ch '\x1b' :: .ch '[' :: .fail :: _, mode =>
    (.threw .ioError, tcsetattr (setraw mode) mode)
  | pos, .ch '\x1b' :: .ch '[' :: .ch 'A' :: rest, mode =>
    unixLoop setraw n (cursorStep n pos .moveUp).1 rest
      (tcsetattr (setraw mode) mode)
  | pos, .ch '\x1b' :: .ch '[' :: .ch 'B' :: rest, mode =>
    unixLoop setraw n (cursorStep n pos .moveDown).1 rest
      (tcsetattr (setraw mode) mode)
  | pos, .ch '\x1b' :: .ch '[' :: .ch _ :: rest, mode =>
    unixLoop setraw n pos rest (tcsetattr (setraw mode) mode)
  | pos, .ch '\x1b' :: .ch _ :: rest, mode =>
    unixLoop setraw n pos rest (tcsetattr (setraw mode) mode)
  | pos, .ch '\r' :: _, mode => (.done (some pos), tcsetattr (setraw mode) mode)
  | pos, .ch '\n' :: _, mode => (.done (some pos), tcsetattr (setraw mode) mode)
  | _, .ch '\x03' :: _, mode => (.done none, tcsetattr (setraw mode) mode)
  | pos, .ch _ :: rest, mode =>
    unixLoop setraw n pos rest (tcsetattr (setraw mode) mode)

/-- Windows branch of the key-reading loop (ui.py lines 272-289), byte by
byte as in the source: `b'\xe0'` (224) prefixes an arrow pair whose second
byte updates the cursor under the same guards as `cursorStep`, `b'\r'` (13)
returns the cursor, `b'\x1b'` (27) and `b'\x03'` (3) return no selection,
and unmatched bytes fall through and loop. -/
def winLoop (n : Nat) : Nat → List WinRead → Except PyErr (Option Nat)
  | _, [] => .error .ioError
  | _, .err e :: _ => .error e
  | _, .byte 224 :: [] => .error .ioError
  | _, .byte 224 :: .err e :: _ => .error e
  | pos, .byte 224 :: .byte 72 :: rest =>
    winLoop n (cursorStep n pos .moveUp).1 rest
  | pos, .byte 224 :: .byte 80 :: rest =>
    winLoop n (cursorStep n pos .moveDown).1 rest
  | pos, .byte 224 :: .byte _ :: rest => winLoop n pos rest
  | pos, .byte 13 :: _ => .ok (some pos)
  | _, .byte 27 :: _ => .ok none
  | _, .byte 3 :: _ => .ok none
  | pos, .byte _ :: rest => winLoop n pos rest

/-- Environment a `select_undo_point` call runs in: whether the `msvcrt`
module is importable, whether `os.name == 'nt'`, the two platform input
streams, and the outcome of the `inquirer.prompt` call inside
`select_from_list` (`ok none` models a dismissed prompt, `ok (some s)` a
choice, `error e` a raised exception). -/
structure Env where
  msvcrtAvailable : Bool
  osIsNt : Bool
  winBytes : List WinRead
  unixStream : List ReadRes
  promptResult : Except PyErr (Option String)
  deriving Repr

/-- Observable side effects of one `select_undo_point` call: whether
`print_warning` ran, whether `tty.setraw` ran, whether the Unix arrow-key
branch was entered, and whether `display_header`/`display_menu` rendered
anything. -/
structure Trace where
  warned : Bool
  rawModeEntered : Bool
  unixBranchEntered : Bool
  rendered : Bool
  deriving DecidableEq, Repr

/-- Embedding of `select_from_list` (ui.py lines 170-187): empty choices
print a warning and return `None`; otherwise the prompt's answer is
returned, with `KeyboardInterrupt` and any other exception absorbed into
`None`.  The second component records whether the warning was printed. -/
def select_from_list (choices : List String)
    (promptResult : Except PyErr (Option String)) : Option String × Bool :=
  if choices = [] then (none, true)
  else
    match promptResult with
    | .ok r => (r, false)
    | .error _ => (none, false)

/-- Embedding of Python's `list.index`: first index whose element equals
`s`, raising `ValueError` when `s` does not occur. -/
def pyIndex : List String → String → Except PyErr Nat
  | [], _ => .error .valueError
  | x :: xs, s => if x = s then .ok 0 else (pyIndex xs s).map (· + 1)

/-- Mapping of the fallback result back to an index (ui.py lines 323-326):
`if result: return choices.index(result)` then `return None`.  Python
truthiness makes both `None` and the empty string fall through to `None`. -/
def fallback_index (choices : List String) (res : Option String) :
    Except PyErr (Option Nat) :=
  match res with
  | some s => if s = "" then .ok none else (pyIndex choices s).map some
  | none => .ok none

/-- Conversion of an `Except` value to a call outcome. -/
def pyOfExc {α : Type} : Except PyErr α → PyOutcome α
  | .ok a => .ret a
  | .error e => .raised e

/-- Body of the generic `except Exception` handler (ui.py lines 320-326):
run `select_from_list` and map its answer back to an index.  The boolean
records whether the fallback printed the empty-choices warning. -/
def undo_fallback (choices : List String)
    (promptResult : Except PyErr (Option String)) :
    PyOutcome (Option Nat) × Bool :=
  let res := select_from_list choices promptResult
  (pyOfExc (fallback_index choices res.1), res.2)

/-- Body of the `try` block of `select_undo_point` (ui.py lines 195-316):
`import msvcrt` first (raising `ImportError` when the module is missing),
then the empty-choices check, then header/menu rendering and the
platform-selected key loop. -/
def select_undo_point_body (env : Env) (choices : List String) :
    PyOutcome (Option Nat) × Trace :=
  if env.msvcrtAvailable = false then (.raised .importError, ⟨false, false, false, false⟩)
  else if choices = [] then (.ret none, ⟨true, false, false, false⟩)
  else if env.osIsNt then
    (pyOfExc (winLoop choices.length 0 env.winBytes), ⟨false, false, false, true⟩)
  else
    match (unixLoop (fun m => m) choices.length 0 env.unixStream ()).1 with
    | .done r => (.ret r, ⟨false, true, true, true⟩)
    | .threw e => (.raised e, ⟨false, true, true, true⟩)
    | .spin => (.diverge, ⟨false, true, true, true⟩)

/-- Embedding of `select_undo_point` (ui.py lines 190-326): the `try` body,
then `except KeyboardInterrupt: return None` and `except Exception:` falling
back to `select_from_list` with first-match index lookup. -/
def select_undo_point (env : Env) (choices : List String) :
    PyOutcome (Option Nat) × Trace :=
  match select_undo_point_body env choices with
  | (.ret r, t) => (.ret r, t)
  | (.diverge, t) => (.diverge, t)
  | (.raised .keyboardInterrupt, t) => (.ret none, t)
  | (.raised _, t) =>
    let fb := undo_fallback choices env.promptResult
    (fb.1, ⟨t.warned || fb.2, t.rawModeEntered, t.unixBranchEntered, t.rendered⟩)

/-- Environment of a non-Windows call whose fallback prompt answers the
empty display string (used to exercise `if result:` truthiness). -/
def dupEnv : Env := ⟨false, false, [], [], .ok (some "")⟩

/-- Environment of a non-Windows call whose fallback prompt answers `"a"`. -/
def firstMatchEnv : Env := ⟨false, false, [], [], .ok (some "a")⟩

/-- Environment of a Windows call whose first key is Enter and whose
fallback prompt (never reached) would raise. -/
def enterEnv : Env := ⟨true, true, [.byte 13], [], .error .ioError⟩

end BetterGit

namespace BetterGit

/-- C1: for every total `N >= 1` and cursor `0 <= c < N` with
`max_visible = 10`, the viewport window of `display_menu` satisfies
`start <= c < end`, `end - start <= min 10 N`, `start >= 0` and `end <= N`. -/
theorem window_bounds (N c : Int) (hN : 1 ≤ N) (hc0 : 0 ≤ c) (hcN : c < N) :
    (window N c 10).1 ≤ c ∧ c < (window N c 10).2 ∧
    (window N c 10).2 - (window N c 10).1 ≤ min 10 N ∧
    0 ≤ (window N c 10).1 ∧ (window N c 10).2 ≤ N := by
  simp only [window]
  split <;> omega

/-- Witness for `window_bounds` at `N = 25`, `c = 20`. -/
theorem window_bounds_witness :
    (window 25 20 10).1 ≤ 20 ∧ (20 : Int) < (window 25 20 10).2 ∧
    (window 25 20 10).2 - (window 25 20 10).1 ≤ min 10 25 ∧
    0 ≤ (window 25 20 10).1 ∧ (window 25 20 10).2 ≤ 25 :=
  window_bounds 25 20 (by norm_num) (by norm_num) (by norm_num)

/-- C2: the Unix key-reading loop restores the terminal attributes to the
iteration-entry snapshot on every path out of the `try` block — accept,
cancel via Escape or Ctrl+C, a read that raises, or the loop spinning — so
the loop's resulting terminal mode always equals the mode it started in,
whatever `tty.setraw` does to it. -/
theorem unixLoop_restores {M : Type} (setraw : M → M) (n pos : Nat)
    (stream : List ReadRes) (mode : M) :
    (unixLoop setraw n pos stream mode).2 = mode := by
  induction pos, stream, mode using unixLoop.induct setraw n <;>
    simp_all [unixLoop, tcsetattr]

/-- Helper: one cursor update keeps the cursor at or below `n - 1`. -/
theorem cursorStep_le (n pos : Nat) (e : KeyEvent) (h : pos ≤ n - 1) :
    (cursorStep n pos e).1 ≤ n - 1 := by
  cases e <;> unfold cursorStep <;> dsimp only <;> (try split) <;> omega

/-- Helper: one cursor update keeps the cursor strictly below `n`. -/
theorem cursorStep_lt (n pos : Nat) (e : KeyEvent) (h : pos < n) :
    (cursorStep n pos e).1 < n := by
  cases e <;> unfold cursorStep <;> dsimp only <;> (try split) <;> omega

/-- Helper: folding any event list keeps the cursor at or below `n - 1`. -/
theorem cursorFold_le (n : Nat) (evs : List KeyEvent) :
    ∀ pos, pos ≤ n - 1 → cursorFold n pos evs ≤ n - 1 := by
  induction evs with
  | nil => intro pos h; simpa [cursorFold] using h
  | cons e rest ih =>
    intro pos h
    simpa [cursorFold, List.foldl] using ih _ (cursorStep_le n pos e h)

/-- C4: for `n >= 1` options the cursor starts at 0 and stays in
`[0, n-1]` after any consecutive sequence of events (it is a `Nat`, so it
is never below 0); a `MoveUp` at 0 and a `MoveDown` at `n-1` leave the
cursor unchanged and trigger no redraw. -/
theorem cursor_clamped (n : Nat) (_h : 1 ≤ n) (evs : List KeyEvent) :
    cursorFold n 0 evs ≤ n - 1 ∧
    cursorStep n 0 .moveUp = (0, false) ∧
    cursorStep n (n - 1) .moveDown = (n - 1, false) := by
  refine ⟨cursorFold_le n evs 0 (by omega), ?_, ?_⟩ <;>
    unfold cursorStep <;> dsimp only <;> split <;> first | rfl | omega

/-- Witness for `cursor_clamped` at `n = 3` and a concrete event list that
hits both boundaries. -/
theorem cursor_clamped_witness :
    cursorFold 3 0 [KeyEvent.moveUp, .moveDown, .moveDown, .moveDown] ≤ 2 ∧
    cursorStep 3 0 .moveUp = (0, false) ∧
    cursorStep 3 2 .moveDown = (2, false) :=
  cursor_clamped 3 (by norm_num) [KeyEvent.moveUp, .moveDown, .moveDown, .moveDown]

/-- C5: the key decoders map raw input to logical events as specified:
`ESC '[' 'A'`/`ESC '[' 'B'` to the arrows, a lone `0x03` to cancel and
`0x0D` to accept on the Unix branch; prefix `0xE0` then `'H'`/`'P'` to the
arrows, `0x0D` to accept, `0x1B` and `0x03` to cancel on the Windows
branch — each independent of what follows in the stream. -/
theorem decoder_mappings :
    (∀ rest, decodeUnix (.ch '\x1b' :: .ch '[' :: .ch 'A' :: rest) = .ok (.moveUp, rest)) ∧
    (∀ rest, decodeUnix (.ch '\x1b' :: .ch '[' :: .ch 'B' :: rest) = .ok (.moveDown, rest)) ∧
    (∀ rest, decodeUnix (.ch '\x03' :: rest) = .ok (.cancel, rest)) ∧
    (∀ rest, decodeUnix (.ch '\x0D' :: rest) = .ok (.accept, rest)) ∧
    (∀ rest, decodeWin (.byte 224 :: .byte 72 :: rest) = .ok (.moveUp, rest)) ∧
    (∀ rest, decodeWin (.byte 224 :: .byte 80 :: rest) = .ok (.moveDown, rest)) ∧
    (∀ rest, decodeWin (.byte 13 :: rest) = .ok (.accept, rest)) ∧
    (∀ rest, decodeWin (.byte 27 :: rest) = .ok (.cancel, rest)) ∧
    (∀ rest, decodeWin (.byte 3 :: rest) = .ok (.cancel, rest)) := by
  refine ⟨?_, ?_, ?_, ?_, ?_, ?_, ?_, ?_, ?_⟩ <;> intro rest <;> rfl

/-- C6: a lone `ESC` with no further bytes in the read cycle decodes to
cancel with nothing left over, and drives the Unix loop to return no
selection; the three-byte arrow sequence consumes exactly its three bytes,
leaving any following bytes unread. -/
theorem lone_escape_cancels :
    decodeUnix [ReadRes.ch '\x1b'] = .ok (.cancel, []) ∧
    (∀ (M : Type) (setraw : M → M) (n pos : Nat) (mode : M),
      (unixLoop setraw n pos [ReadRes.ch '\x1b'] mode).1 = .done none) ∧
    (∀ c rest, decodeUnix (.ch '\x1b' :: .ch '[' :: .ch 'A' :: .ch c :: rest) =
      .ok (.moveUp, .ch c :: rest)) := by
  exact ⟨rfl, fun M setraw n pos mode => rfl, fun c rest => rfl⟩

/-- C7: an accept event returns the current cursor index: with three
options, `[MoveDown, MoveDown, Accept]` yields index 2 and
`[MoveUp, Accept]` (up at 0 is a no-op) yields index 0. -/
theorem accept_returns_cursor_index :
    runSession (["a", "b", "c"] : List String).length 0
      [KeyEvent.moveDown, .moveDown, .accept] = .ok (some 2) ∧
    runSession (["a", "b", "c"] : List String).length 0
      [KeyEvent.moveUp, .accept] = .ok (some 0) :=
  ⟨rfl, rfl⟩

/-- C3: when `msvcrt` is unavailable, `import msvcrt` raises before the
empty-choices check or any rendering, the generic handler catches it, and
the whole call resolves through the `select_from_list` fallback; the Unix
raw-terminal branch is never entered. -/
theorem no_msvcrt_delegates_to_fallback (env : Env) (choices : List String)
    (h : env.msvcrtAvailable = false) :
    (select_undo_point env choices).1 = (undo_fallback choices env.promptResult).1 ∧
    (select_undo_point env choices).2.unixBranchEntered = false ∧
    (select_undo_point env choices).2.rawModeEntered = false ∧
    (select_undo_point env choices).2.rendered = false ∧
    (select_undo_point_body env choices).1 = .raised .importError := by
  simp [select_undo_point, select_undo_point_body, h]

/-- Witness for `no_msvcrt_delegates_to_fallback` at a concrete non-Windows
environment and a two-element list. -/
theorem no_msvcrt_delegates_to_fallback_witness :
    (select_undo_point firstMatchEnv ["a", "b"]).1 =
      (undo_fallback ["a", "b"] firstMatchEnv.promptResult).1 ∧
    (select_undo_point firstMatchEnv ["a", "b"]).2.unixBranchEntered = false ∧
    (select_undo_point firstMatchEnv ["a", "b"]).2.rawModeEntered = false ∧
    (select_undo_point firstMatchEnv ["a", "b"]).2.rendered = false ∧
    (select_undo_point_body firstMatchEnv ["a", "b"]).1 = .raised .importError :=
  no_msvcrt_delegates_to_fallback firstMatchEnv ["a", "b"] rfl

/-- C9: with an empty choices list, `select_undo_point` returns no
selection and a warning is printed, and raw terminal mode is never
entered, on every platform. -/
theorem empty_choices_warn_and_none (env : Env) :
    (select_undo_point env []).1 = .ret none ∧
    (select_undo_point env []).2.warned = true ∧
    (select_undo_point env []).2.rawModeEntered = false := by
  cases h : env.msvcrtAvailable <;>
    simp [select_undo_point, select_undo_point_body, h, undo_fallback,
      select_from_list, fallback_index, pyOfExc]

/-- Helper: `list.index` succeeds on a member and yields an in-range index. -/
theorem pyIndex_ok_of_mem (l : List String) (s : String) (h : s ∈ l) :
    ∃ i, pyIndex l s = .ok i ∧ i < l.length := by
  induction l with
  | nil => cases h
  | cons x xs ih =>
    by_cases hx : x = s
    · exact ⟨0, by simp [pyIndex, hx], by simp⟩
    · have hmem : s ∈ xs := by
        rcases List.mem_cons.mp h with h1 | h2
        · exact absurd h1.symm hx
        · exact h2
      obtain ⟨i, hi, hlt⟩ := ih hmem
      refine ⟨i + 1, by simp [pyIndex, hx, hi, Except.map], by simp; omega⟩

/-- Helper: the generic-except fallback always returns (never raises) and
any returned index is in range, provided the prompt only ever answers one
of the offered choices. -/
theorem undo_fallback_ok (choices : List String)
    (p : Except PyErr (Option String))
    (hp : ∀ s, p = .ok (some s) → s ∈ choices) :
    ∃ r : Option Nat, (undo_fallback choices p).1 = .ret r ∧
      ∀ i, r = some i → i < choices.length := by
  by_cases hc : choices = []
  · exact ⟨none, by simp [undo_fallback, select_from_list, fallback_index,
      pyOfExc, hc], by simp⟩
  · match hq : p with
    | .error e =>
      exact ⟨none, by simp [undo_fallback, select_from_list, fallback_index,
        pyOfExc, hc], by simp⟩
    | .ok none =>
      exact ⟨none, by simp [undo_fallback, select_from_list, fallback_index,
        pyOfExc, hc], by simp⟩
    | .ok (some s) =>
      by_cases hs : s = ""
      · exact ⟨none, by simp [undo_fallback, select_from_list, fallback_index,
          pyOfExc, hc, hs], by simp⟩
      · obtain ⟨i, hi, hlt⟩ := pyIndex_ok_of_mem choices s (hp s rfl)
        refine ⟨some i, by simp [undo_fallback, select_from_list,
          fallback_index, pyOfExc, hc, hs, hi, Except.map], ?_⟩
        intro j hj
        cases hj
        exact hlt

/-- Helper: the Windows key loop only ever returns an index below `n`,
starting from a cursor below `n`. -/
theorem winLoop_lt (n pos : Nat) (stream : List WinRead) :
    pos < n → ∀ i, winLoop n pos stream = .ok (some i) → i < n := by
  induction pos, stream using winLoop.induct n <;>
    intro hpos i h <;>
    simp_all [winLoop] <;>
    (rename_i ih; exact ih (cursorStep_lt n _ _ hpos))

/-- C8: `select_undo_point` never propagates an exception: assuming the
platform invariant that `msvcrt` only imports where `os.name == 'nt'` and
that the fallback prompt only answers offered choices, every call returns a
value — `some i` with `i < len choices` or `none` — and never raises or
diverges. -/
theorem never_raises (env : Env) (choices : List String)
    (hplat : env.msvcrtAvailable = true → env.osIsNt = true)
    (hprompt : ∀ s, env.promptResult = Except.ok (some s) → s ∈ choices) :
    ∃ r : Option Nat, (select_undo_point env choices).1 = .ret r ∧
      ∀ i, r = some i → i < choices.length := by
  cases hm : env.msvcrtAvailable with
  | false =>
    obtain ⟨r, hr, hrange⟩ := undo_fallback_ok choices env.promptResult hprompt
    refine ⟨r, ?_, hrange⟩
    simp [select_undo_point, select_undo_point_body, hm, hr]
  | true =>
    have hnt := hplat hm
    by_cases hc : choices = []
    · exact ⟨none, by simp [select_undo_point, select_undo_point_body, hm, hc],
        by simp⟩
    · have hlen : 0 < choices.length := List.length_pos.mpr hc
      match hwl : winLoop choices.length 0 env.winBytes with
      | .ok r =>
        refine ⟨r, ?_, ?_⟩
        · simp [select_undo_point, select_undo_point_body, hm, hc, hnt, hwl,
            pyOfExc]
        · intro i hi
          subst hi
          exact winLoop_lt choices.length 0 env.winBytes hlen i hwl
      | .error .keyboardInterrupt =>
        exact ⟨none, by simp [select_undo_point, select_undo_point_body, hm,
          hc, hnt, hwl, pyOfExc], by simp⟩
      | .error .importError =>
        obtain ⟨r, hr, hrange⟩ := undo_fallback_ok choices env.promptResult hprompt
        exact ⟨r, by simp [select_undo_point, select_undo_point_body, hm, hc,
          hnt, hwl, pyOfExc, hr], hrange⟩
      | .error .ioError =>
        obtain ⟨r, hr, hrange⟩ := undo_fallback_ok choices env.promptResult hprompt
        exact ⟨r, by simp [select_undo_point, select_undo_point_body, hm, hc,
          hnt, hwl, pyOfExc, hr], hrange⟩
      | .error .valueError =>
        obtain ⟨r, hr, hrange⟩ := undo_fallback_ok choices env.promptResult hprompt
        exact ⟨r, by simp [select_undo_point, select_undo_point_body, hm, hc,
          hnt, hwl, pyOfExc, hr], hrange⟩

/-- Witness for `never_raises`: a Windows environment whose first key is
Enter, on a one-element list. -/
theorem never_raises_witness :
    ∃ r : Option Nat, (select_undo_point enterEnv ["a"]).1 = .ret r ∧
      ∀ i, r = some i → i < (["a"] : List String).length :=
  never_raises enterEnv ["a"] (fun _ => rfl)
    (fun s h => by simp [enterEnv] at h)

/-- C10 counterexample: with duplicate empty display strings, the fallback
path maps a selected empty string to no selection, not to the index 0 of
its first occurrence, because `if result:` treats `""` as false. -/
theorem dup_empty_string_counterexample :
    (select_undo_point dupEnv ["", ""]).1 = .ret none ∧
    pyIndex ["", ""] "" = .ok 0 ∧
    (PyOutcome.ret none : PyOutcome (Option Nat)) ≠ .ret (some 0) := by
  refine ⟨?_, ?_, ?_⟩ <;> first | rfl | decide

/-- Helper: `list.index` returns exactly the first position carrying `s`. -/
theorem pyIndex_first (l : List String) (s : String) :
    ∀ i, l[i]? = some s → (∀ k, k < i → l[k]? ≠ some s) →
      pyIndex l s = .ok i := by
  induction l with
  | nil => intro i hi _; simp at hi
  | cons x xs ih =>
    intro i hi hfirst
    by_cases hx : x = s
    · cases i with
      | zero => simp [pyIndex, hx]
      | succ j =>
        exact absurd (show (x :: xs)[0]? = some s by simp [hx])
          (hfirst 0 (Nat.succ_pos j))
    · cases i with
      | zero => simp at hi; exact absurd hi hx
      | succ j =>
        have hj : xs[j]? = some s := by simpa using hi
        have hf : ∀ k, k < j → xs[k]? ≠ some s := by
          intro k hk
          have hk1 := hfirst (k + 1) (by omega)
          simpa using hk1
        simp [pyIndex, hx, ih j hj hf, Except.map]

/-- C10 amended: when the fallback path runs after an exception and the
selected display string is non-empty, a duplicated string maps back to the
index of its first occurrence, even if the user picked a later occurrence;
a selected empty string instead degrades to no selection. -/
theorem fallback_first_match (env : Env) (choices : List String) (s : String)
    (i : Nat)
    (hm : env.msvcrtAvailable = false)
    (hp : env.promptResult = .ok (some s))
    (hs : s ≠ "")
    (hi : choices[i]? = some s)
    (hfirst : ∀ k, k < i → choices[k]? ≠ some s)
    (_hdup : ∃ j, i < j ∧ choices[j]? = some s) :
    (select_undo_point env choices).1 = .ret (some i) := by
  have hne : choices ≠ [] := by
    intro h
    subst h
    simp at hi
  have hpy := pyIndex_first choices s i hi hfirst
  simp [select_undo_point, select_undo_point_body, hm, undo_fallback,
    select_from_list, hne, hp, fallback_index, hs, hpy, pyOfExc, Except.map]

/-- Witness for `fallback_first_match`: choices `["a", "b", "a"]` with the
duplicated string `"a"` selected resolve to index 0. -/
theorem fallback_first_match_witness :
    (select_undo_point firstMatchEnv ["a", "b", "a"]).1 = .ret (some 0) :=
  fallback_first_match firstMatchEnv ["a", "b", "a"] "a" 0 rfl rfl
    (by decide) (by decide) (fun k hk => absurd hk (Nat.not_lt_zero k))
    ⟨2, Nat.zero_lt_two, by decide⟩

end BetterGit
